/-
Verification of the flightCrashData2025 harvesting pipeline.

The repository harvests aviation-accident records from two external sources
(an HTML-paginated listing site scraped by ASN_scraping/scraper.py, and a
JSON-API archive downloaded month-by-month by NTSB_scraping/script.py),
merges archive files (NTSB_scraping/merge_extracted_json.py) and loads the
records into relational staging tables (TL/load_staging.py).

This file gives a shallow embedding of those Python functions as executable
Lean definitions and proves the specification's claims about them.  Python
string primitives (strip, lower, replace, split, substring containment) are
modelled by structural recursion over the character list of the string, so
every definition evaluates inside the kernel.  External collaborators - the
HTTP stack, the DOM library, the database driver and the datetime library -
are modelled at their interfaces: fetched pages, anchor-element texts and
network outcomes are inputs; the ON CONFLICT DO NOTHING insert semantics is
taken from the literal SQL text in load_staging.py; datetime day arithmetic
is modelled by the Gregorian calendar rules.
-/
import Mathlib

namespace FlightCrash

/-! ## Python string primitives, modelled over the character list -/

/-- Characters removed by the Python str.strip() default (whitespace). -/
def isPySpace (c : Char) : Bool :=
  c = ' ' || c = '\t' || c = '\n' || c = '\r' || c = '\x0b' || c = '\x0c'

/-- Model of Python str.strip(): drop leading and trailing whitespace. -/
def pyStrip (s : String) : String :=
  ⟨((s.data.dropWhile isPySpace).reverse.dropWhile isPySpace).reverse⟩

/-- Model of Python str.lower() (ASCII field labels only appear here). -/
def pyLower (s : String) : String :=
  ⟨s.data.map Char.toLower⟩

/-- Model of Python s.replace(c, ""): delete every occurrence of the character. -/
def removeChar (c : Char) (s : String) : String :=
  ⟨s.data.filter (fun x => x ≠ c)⟩

/-- Helper for substring containment over character lists. -/
def pyInAux (pat : List Char) : List Char → Bool
  | [] => pat.isEmpty
  | c :: rest => pat.isPrefixOf (c :: rest) || pyInAux pat rest

/-- Model of the Python substring test (pat in s). -/
def pyIn (pat s : String) : Bool := pyInAux pat.data s.data

/-- Helper for splitting a character list on a separator character. -/
def splitCharAux (sep : Char) : List Char → List (List Char)
  | [] => [[]]
  | c :: rest =>
    let r := splitCharAux sep rest
    if c = sep then [] :: r
    else
      match r with
      | [] => [[c]]
      | h :: t => (c :: h) :: t

/-- Model of Python s.split(sep) for a single-character separator. -/
def pySplit (sep : Char) (s : String) : List String :=
  (splitCharAux sep s.data).map String.mk

/-! ## ASN_scraping/scraper.py: _extract_country -/

/-- Embedding of AviationSafetyScraper._extract_country.  The DOM search for
an anchor with href matching /asndb/country/ inside the Location row is
modelled by the optional text of that anchor (countryLink); the rest follows
the source: prefer the link text stripped, else the last dash-separated
segment stripped when the raw text contains a dash, else the raw text
stripped. -/
def extract_country (countryLink : Option String) (location_text : String) : String :=
  match countryLink with
  | some linkText => pyStrip linkText
  | none =>
    if pyIn "-" location_text then
      let parts := pySplit '-' location_text
      if 2 ≤ parts.length then pyStrip (parts.getLastD "")
      else pyStrip location_text
    else pyStrip location_text

/-! ## NTSB_scraping/script.py: get_month_date_range -/

/-- Gregorian leap-year rule (used to model the datetime library). -/
def isLeapYear (y : Nat) : Bool :=
  (y % 4 == 0 && y % 100 != 0) || y % 400 == 0

/-- Number of days in a calendar month (Gregorian rules). -/
def daysInMonth (y m : Nat) : Nat :=
  if m == 2 then (if isLeapYear y then 29 else 28)
  else if m == 4 || m == 6 || m == 9 || m == 11 then 30
  else 31

/-- Modelled from the datetime library (an external collaborator):
subtracting timedelta(days=1) from a (year, month, day) date under the
Gregorian calendar rules. -/
def predDay : Nat × Nat × Nat → Nat × Nat × Nat
  | (y, m, d) =>
    if 1 < d then (y, m, d - 1)
    else if 1 < m then (y, m - 1, daysInMonth y (m - 1))
    else (y - 1, 12, 31)

/-- Zero-pad a number to two digits, as Python strftime %m / %d do. -/
def pad2 (n : Nat) : String :=
  if n < 10 then "0" ++ toString n else toString n

/-- Zero-pad a year to four digits, as Python strftime %Y does. -/
def pad4 (n : Nat) : String :=
  if n < 10 then "000" ++ toString n
  else if n < 100 then "00" ++ toString n
  else if n < 1000 then "0" ++ toString n
  else toString n

/-- Render a (year, month, day) date as strftime("%Y-%m-%d") does. -/
def fmtDate (y m d : Nat) : String :=
  pad4 y ++ "-" ++ pad2 m ++ "-" ++ pad2 d

/-- Embedding of NTSBScraper.get_month_date_range: the first day is day 1 of
the month; the last day is December 31 for month 12 and otherwise the day
before the first day of the following month. -/
def get_month_date_range (year month : Nat) : String × String :=
  let first_day : Nat × Nat × Nat := (year, month, 1)
  let last_day : Nat × Nat × Nat :=
    if month == 12 then (year, 12, 31)
    else predDay (year, month + 1, 1)
  (fmtDate first_day.1 first_day.2.1 first_day.2.2,
   fmtDate last_day.1 last_day.2.1 last_day.2.2)

/-! ## TL/load_staging.py: the Staging Loader

A staging table is a list of (source_unique_id, raw payload) rows in insert
order.  The INSERT ... ON CONFLICT (source_unique_id) DO NOTHING statement
sent by execute_batch is modelled row by row: a row whose key is already in
the table is a silent no-op, otherwise the row is appended.  The payload
type is abstract (json.dumps output is opaque to the loader). -/

/-- Does the table already contain a row with this key? -/
def hasKey {α : Type} (t : List (String × α)) (k : String) : Bool :=
  t.any (fun r => r.1 = k)

/-- One INSERT ... ON CONFLICT (source_unique_id) DO NOTHING: a conflicting
insert is a no-op, never an overwrite and never an error. -/
def insertIgnore {α : Type} (t : List (String × α)) (row : String × α) : List (String × α) :=
  if hasKey t row.1 then t else t ++ [row]

/-- Embedding of execute_batch with the ON CONFLICT DO NOTHING statement:
the rows are inserted in order, each one with insert-or-ignore semantics. -/
def execute_batch {α : Type} (t : List (String × α)) (rows : List (String × α)) :
    List (String × α) :=
  rows.foldl insertIgnore t

/-- Number of rows of the table carrying a given key. -/
def countKey {α : Type} (t : List (String × α)) (k : String) : Nat :=
  t.countP (fun r => decide (r.1 = k))

/-- One record of the ASN source file as load_source1_aviation sees it: the
value of its "url" field, if any, and the serialized record payload. -/
structure AsnRecord (α : Type) where
  url : Option String
  payload : α

/-- SourceKey extraction in load_source1_aviation:
record.get("url").split("/")[-1], the wikibase id. -/
def sourceIdOfUrl (u : String) : String :=
  (pySplit '/' u).getLastD ""

/-- The row list built by the loop in load_source1_aviation.  A record whose
url field is absent makes record.get("url") None, so the .split call raises
and the whole load aborts: modelled as the none result. -/
def source1Rows {α : Type} : List (AsnRecord α) → Option (List (String × α))
  | [] => some []
  | r :: rest =>
    match r.url with
    | none => none
    | some u =>
      match source1Rows rest with
      | none => none
      | some rows => some ((sourceIdOfUrl u, r.payload) :: rows)

/-- Embedding of load_source1_aviation: build the rows from the accidents
array and batch-insert them with ON CONFLICT DO NOTHING. -/
def load_source1_aviation {α : Type} (t : List (String × α)) (accidents : List (AsnRecord α)) :
    Option (List (String × α)) :=
  (source1Rows accidents).map (fun rows => execute_batch t rows)

/-- One record of the NTSB source file as load_source2_ntsb sees it: the
value of its cm_ntsbNum field, if any, and the serialized record payload. -/
structure NtsbRecord (α : Type) where
  ntsbNum : Option String
  payload : α

/-- The row list built by the loop in load_source2_ntsb: every record is
appended with source_id = record.get("cm_ntsbNum"), which is None when the
field is missing - there is no skip and no warning in the source. -/
def load_source2_rows {α : Type} (records : List (NtsbRecord α)) :
    List (Option String × α) :=
  records.map (fun r => (r.ntsbNum, r.payload))

/-! ## NTSB_scraping/merge_extracted_json.py: the merge loop -/

/-- A decoded JSON value. -/
inductive JVal : Type where
  | str (s : String)
  | num (n : Int)
  | jbool (b : Bool)
  | null
  | arr (elems : List JVal)
  | obj (fields : List (String × JVal))

/-- Dictionary lookup, modelling the Python key test and data["cases"]. -/
def lookupField (fields : List (String × JVal)) (key : String) : Option JVal :=
  match fields with
  | [] => none
  | (k, v) :: rest => if k = key then some v else lookupField rest key

/-- Modelled from Python iteration as list.extend uses it: a list yields its
elements, a dict yields its keys, a string yields its characters, and any
other value raises (none). -/
def pyIter : JVal → Option (List JVal)
  | .arr l => some l
  | .obj fs => some (fs.map (fun f => JVal.str f.1))
  | .str s => some (s.data.map (fun c => JVal.str (String.mk [c])))
  | _ => none

/-- Records contributed by one extracted file in the merge loop: a JSON
array contributes each element; an object with a "cases" field contributes
the elements of that field; any other object contributes itself as the sole
record; a non-list non-dict value matches neither branch and contributes
nothing.  A none result models an exception caught by the loop (the file is
skipped). -/
def fileRecords : JVal → Option (List JVal)
  | .arr l => some l
  | .obj fs =>
    match lookupField fs "cases" with
    | some v => pyIter v
    | none => some [JVal.obj fs]
  | _ => some []

/-- Embedding of the module-body merge loop: fold over the extracted files,
appending each file's records to all_cases, skipping files that error. -/
def mergeFiles (files : List JVal) : List JVal :=
  files.foldl
    (fun acc f =>
      match fileRecords f with
      | some recs => acc ++ recs
      | none => acc)
    []

/-! ## Staging-loader lemmas -/

/-- After an insert the inserted row's key is present. -/
lemma hasKey_insertIgnore_self {α : Type} (t : List (String × α)) (row : String × α) :
    hasKey (insertIgnore t row) row.1 = true := by
  unfold insertIgnore
  by_cases h : hasKey t row.1 = true
  · simp [h]
  · rw [if_neg h]
    simp [hasKey, List.any_append]

/-- Inserting never removes a key already present. -/
lemma hasKey_insertIgnore_mono {α : Type} (t : List (String × α)) (row : String × α)
    (k : String) (h : hasKey t k = true) : hasKey (insertIgnore t row) k = true := by
  unfold insertIgnore
  by_cases hr : hasKey t row.1 = true
  · simp [hr, h]
  · rw [if_neg hr]
    simp only [hasKey, List.any_append, Bool.or_eq_true]
    exact Or.inl h

/-- Inserting a row whose key is present changes nothing. -/
lemma insertIgnore_of_hasKey {α : Type} (t : List (String × α)) (row : String × α)
    (h : hasKey t row.1 = true) : insertIgnore t row = t := by
  simp [insertIgnore, h]

/-- A batch insert never removes a key already present. -/
lemma hasKey_execute_batch_mono {α : Type} (rows : List (String × α)) :
    ∀ (t : List (String × α)) (k : String),
      hasKey t k = true → hasKey (execute_batch t rows) k = true := by
  induction rows with
  | nil => intro t k h; exact h
  | cons r rest ih =>
    intro t k h
    exact ih (insertIgnore t r) k (hasKey_insertIgnore_mono t r k h)

/-- After a batch insert, the key of every row of the batch is present. -/
lemma hasKey_execute_batch_of_mem {α : Type} (rows : List (String × α)) :
    ∀ (t : List (String × α)) (r : String × α), r ∈ rows →
      hasKey (execute_batch t rows) r.1 = true := by
  induction rows with
  | nil => intro t r h; cases h
  | cons x rest ih =>
    intro t r hr
    rcases List.mem_cons.mp hr with h | h
    · subst h
      exact hasKey_execute_batch_mono rest (insertIgnore t r) r.1
        (hasKey_insertIgnore_self t r)
    · exact ih (insertIgnore t x) r h

/-- A batch whose keys are all present already is a complete no-op. -/
lemma execute_batch_eq_of_all_keys {α : Type} (rows : List (String × α)) :
    ∀ (t : List (String × α)), (∀ r ∈ rows, hasKey t r.1 = true) →
      execute_batch t rows = t := by
  induction rows with
  | nil => intro t _; rfl
  | cons x rest ih =>
    intro t h
    have hx : insertIgnore t x = t := insertIgnore_of_hasKey t x (h x (by simp))
    show execute_batch (insertIgnore t x) rest = t
    rw [hx]
    exact ih t (fun r hr => h r (List.mem_cons_of_mem _ hr))

/-- C1: loading the same structured source file into the Staging Loader a
second time inserts zero new rows: a conflicting insert is a silent no-op
(ON CONFLICT DO NOTHING), never an overwrite and never an error, so the
table after the second load equals the table after the first, and after
loading two records with the same key exactly one staging row exists for
that key. -/
theorem staging_load_idempotent {α : Type} (t rows : List (String × α)) :
    execute_batch (execute_batch t rows) rows = execute_batch t rows ∧
    (execute_batch (execute_batch t rows) rows).length = (execute_batch t rows).length ∧
    (∀ (k : String) (p q : α), countKey (execute_batch [] [(k, p), (k, q)]) k = 1) ∧
    (∀ (accidents : List (AsnRecord α)) (rows1 : List (String × α)),
      source1Rows accidents = some rows1 →
      load_source1_aviation (execute_batch t rows1) accidents
        = some (execute_batch t rows1)) := by
  have hidem : ∀ rows1 : List (String × α),
      execute_batch (execute_batch t rows1) rows1 = execute_batch t rows1 := by
    intro rows1
    exact execute_batch_eq_of_all_keys rows1 (execute_batch t rows1)
      (fun r hr => hasKey_execute_batch_of_mem rows1 t r hr)
  refine ⟨hidem rows, by rw [hidem rows], ?_, ?_⟩
  · intro k p q
    simp [execute_batch, insertIgnore, hasKey, countKey]
  · intro accidents rows1 h
    simp only [load_source1_aviation, h]
    show some (execute_batch (execute_batch t rows1) rows1) = some (execute_batch t rows1)
    rw [hidem rows1]

/-- Witness for C1 at concrete inputs: re-loading an already-loaded ASN file
returns the staging table unchanged, and two records sharing key K1 leave
exactly one row for K1. -/
theorem staging_load_idempotent_witness :
    load_source1_aviation
        (execute_batch ([] : List (String × String)) [("367247", "payload")])
        [⟨some "https:aviation-safety.net/wikibase/367247", "payload"⟩]
      = some (execute_batch [] [("367247", "payload")]) ∧
    countKey (execute_batch ([] : List (String × String)) [("K1", "p"), ("K1", "q")]) "K1"
      = 1 := by
  constructor
  · exact (staging_load_idempotent [] [("367247", "payload")]).2.2.2
      [⟨some "https:aviation-safety.net/wikibase/367247", "payload"⟩]
      [("367247", "payload")] (by decide)
  · exact (staging_load_idempotent ([] : List (String × String)) []).2.2.1 "K1" "p" "q"

/-- C2 counterexample: a record whose cm_ntsbNum field is missing is not
skipped by load_source2_ntsb - it is placed in the insert batch with a null
key, so the claimed skip-with-warning behaviour does not hold on the code. -/
theorem ntsb_missing_key_included :
    load_source2_rows [(⟨none, "raw"⟩ : NtsbRecord String)] = [(none, "raw")] ∧
    load_source2_rows [(⟨none, "raw"⟩ : NtsbRecord String)] ≠ [] :=
  ⟨rfl, by decide⟩

/-- C2 amended: a record whose SourceKey cannot be extracted is never
dropped silently or skipped with a warning: load_source2_ntsb keeps every
record, pairing it with a null key when cm_ntsbNum is missing, while
load_source1_aviation aborts with an error when any record lacks a url. -/
theorem loader_missing_key_behavior {α : Type} :
    (∀ records : List (NtsbRecord α),
      (load_source2_rows records).length = records.length ∧
      ∀ r ∈ records, (r.ntsbNum, r.payload) ∈ load_source2_rows records) ∧
    (∀ accidents : List (AsnRecord α),
      (∃ r ∈ accidents, r.url = none) → source1Rows accidents = none) := by
  constructor
  · intro records
    constructor
    · simp [load_source2_rows]
    · intro r hr
      exact List.mem_map_of_mem _ hr
  · intro accidents h
    induction accidents with
    | nil => rcases h with ⟨r, hr, _⟩; cases hr
    | cons x rest ih =>
      rcases h with ⟨r, hr, hurl⟩
      rcases List.mem_cons.mp hr with h1 | h1
      · subst h1
        simp [source1Rows, hurl]
      · cases hx : x.url with
        | none => simp [source1Rows, hx]
        | some u => simp [source1Rows, hx, ih ⟨r, h1, hurl⟩]

/-- Witness for the amended C2 at a concrete input: one keyless NTSB record
is kept with a null key, and one urlless ASN record aborts the load. -/
theorem loader_missing_key_behavior_witness :
    ((⟨none, "raw"⟩ : NtsbRecord String).ntsbNum, "raw")
        ∈ load_source2_rows [(⟨none, "raw"⟩ : NtsbRecord String)] ∧
    source1Rows [(⟨none, "raw"⟩ : AsnRecord String)] = none := by
  constructor
  · exact ((@loader_missing_key_behavior String).1 [⟨none, "raw"⟩]).2 ⟨none, "raw"⟩ (by simp)
  · exact (@loader_missing_key_behavior String).2 [⟨none, "raw"⟩] ⟨⟨none, "raw"⟩, by simp, rfl⟩

/-- C9: the merge treats a JSON array as one record per element, an object
with the "cases" collection field as one record per element of that field,
and an object without that field as a single record (itself); merging a
3-element list file with an object file nesting 5 cases yields exactly the
8 records, and in general the merged length is the sum. -/
theorem merge_list_and_cases_counts (a b c d e f g h : JVal)
    (rest : List (String × JVal)) :
    mergeFiles [JVal.arr [a, b, c], JVal.obj (("cases", JVal.arr [d, e, f, g, h]) :: rest)]
      = [a, b, c, d, e, f, g, h] ∧
    (∀ (l cs : List JVal) (fs : List (String × JVal)),
      lookupField fs "cases" = some (JVal.arr cs) →
      (mergeFiles [JVal.arr l, JVal.obj fs]).length = l.length + cs.length) ∧
    (∀ (l : List JVal) (fs : List (String × JVal)),
      lookupField fs "cases" = none →
      mergeFiles [JVal.arr l, JVal.obj fs] = l ++ [JVal.obj fs]) ∧
    (∀ fs : List (String × JVal),
      lookupField fs "cases" = none →
      fileRecords (JVal.obj fs) = some [JVal.obj fs]) := by
  refine ⟨rfl, ?_, ?_, ?_⟩
  · intro l cs fs hfs
    simp [mergeFiles, fileRecords, hfs, pyIter]
  · intro l fs hfs
    simp [mergeFiles, fileRecords, hfs]
  · intro fs hfs
    simp [fileRecords, hfs]

/-- Witness for C9 at concrete inputs: a 3-record list merged with an
object holding 5 cases yields 3 + 5 records, and an object without a cases
field contributes itself as the sole record. -/
theorem merge_list_and_cases_counts_witness :
    (mergeFiles [JVal.arr [JVal.null, JVal.num 1, JVal.num 2],
        JVal.obj [("cases", JVal.arr [JVal.num 3, JVal.num 4, JVal.num 5, JVal.num 6,
          JVal.num 7])]]).length = 3 + 5 ∧
    mergeFiles [JVal.arr [JVal.num 1], JVal.obj [("x", JVal.null)]]
      = [JVal.num 1, JVal.obj [("x", JVal.null)]] ∧
    fileRecords (JVal.obj [("x", JVal.null)]) = some [JVal.obj [("x", JVal.null)]] := by
  refine ⟨?_, ?_, ?_⟩
  · exact (merge_list_and_cases_counts JVal.null JVal.null JVal.null JVal.null JVal.null
        JVal.null JVal.null JVal.null []).2.1
      [JVal.null, JVal.num 1, JVal.num 2]
      [JVal.num 3, JVal.num 4, JVal.num 5, JVal.num 6, JVal.num 7]
      [("cases", JVal.arr [JVal.num 3, JVal.num 4, JVal.num 5, JVal.num 6, JVal.num 7])]
      rfl
  · exact (merge_list_and_cases_counts JVal.null JVal.null JVal.null JVal.null JVal.null
        JVal.null JVal.null JVal.null []).2.2.1 [JVal.num 1] [("x", JVal.null)] rfl
  · exact (merge_list_and_cases_counts JVal.null JVal.null JVal.null JVal.null JVal.null
        JVal.null JVal.null JVal.null []).2.2.2 [("x", JVal.null)] rfl

/-! ## NTSB_scraping/script.py: download_month and download_all

The network is modelled as a function from a (year, month) window to the
outcome of requests.post plus raise_for_status; the output directory is the
list of artifact filenames already on disk.  Writing the response body to
the artifact file is modelled by appending the filename. -/

/-- Outcome of the export POST request for one month. -/
inductive NetResult : Type where
  | success (content : String)
  | failure (err : String)
deriving DecidableEq

/-- Artifact filename for one (year, month) window, as in download_month. -/
def ntsbFilename (year month : Nat) : String :=
  "ntsb_" ++ toString year ++ "_" ++ pad2 month ++ ".zip"

/-- Result of one download_month call: the returned boolean, the artifact
directory afterwards, and whether a network request was issued. -/
structure DownloadOutcome : Type where
  ok : Bool
  files : List String
  requested : Bool
deriving DecidableEq

/-- Embedding of download_month: skip with success and no request when the
artifact already exists; otherwise issue the request, writing the artifact
only on success, and returning False (artifact untouched) on a request
exception. -/
def download_month (net : Nat → Nat → NetResult) (files : List String)
    (year month : Nat) : DownloadOutcome :=
  if ntsbFilename year month ∈ files then ⟨true, files, false⟩
  else
    match net year month with
    | .success _ => ⟨true, files ++ [ntsbFilename year month], true⟩
    | .failure _ => ⟨false, files, true⟩

/-- Embedding of the window loop in download_all: every (year, month) pair
is passed to download_month in order, counting successes and failures; no
outcome aborts the iteration.  Returns (successful, failed, files). -/
def downloadMonths (net : Nat → Nat → NetResult) :
    List (Nat × Nat) → List String → Nat × Nat × List String
  | [], files => (0, 0, files)
  | (y, m) :: rest, files =>
    let out := download_month net files y m
    let r := downloadMonths net rest out.files
    (if out.ok then r.1 + 1 else r.1, if out.ok then r.2.1 else r.2.1 + 1, r.2.2)

/-- Last month iterated for a year in download_all: the current month for
the current calendar year, 12 for every other year. -/
def lastMonthOfYear (curYear curMonth year : Nat) : Nat :=
  if year = curYear then curMonth else 12

/-- The (year, month) pairs visited by download_all: years from start_year
to end_year inclusive, months from 1 to lastMonthOfYear. -/
def downloadAllPairs (startY endY curY curM : Nat) : List (Nat × Nat) :=
  (List.range' startY (endY + 1 - startY)).flatMap
    (fun y => (List.range' 1 (lastMonthOfYear curY curM y)).map (fun m => (y, m)))

/-- Embedding of download_all: fold download_month over the visited pairs. -/
def download_all (net : Nat → Nat → NetResult) (files : List String)
    (startY endY curY curM : Nat) : Nat × Nat × List String :=
  downloadMonths net (downloadAllPairs startY endY curY curM) files

/-! ## Theorems for claims C5 and C8 -/

/-- C5: if the artifact for a (year, month) window already exists,
download_month returns immediately with no network request; if the export
request fails, no artifact is created and the call returns False, so a
subsequent run (any network) finds no artifact and issues the request
again; and a failed month never aborts the window iteration - every pair
in the list is attempted, successes and failures summing to the total. -/
theorem download_month_resumable (net net2 : Nat → Nat → NetResult)
    (files : List String) (year month : Nat) :
    (ntsbFilename year month ∈ files →
      download_month net files year month = ⟨true, files, false⟩) ∧
    (ntsbFilename year month ∉ files → ∀ e, net year month = .failure e →
      download_month net files year month = ⟨false, files, true⟩ ∧
      ntsbFilename year month ∉ (download_month net files year month).files ∧
      (download_month net2 (download_month net files year month).files year month).requested
        = true) ∧
    (∀ (pairs : List (Nat × Nat)) (fs : List String),
      (downloadMonths net pairs fs).1 + (downloadMonths net pairs fs).2.1
        = pairs.length) := by
  refine ⟨?_, ?_, ?_⟩
  · intro hmem
    simp [download_month, hmem]
  · intro hmem e hfail
    have hdm : download_month net files year month = ⟨false, files, true⟩ := by
      simp [download_month, hmem, hfail]
    refine ⟨hdm, ?_, ?_⟩
    · rw [hdm]; exact hmem
    · rw [hdm]
      simp only [download_month]
      by_cases h2 : ntsbFilename year month ∈ files
      · exact absurd h2 hmem
      · rw [if_neg h2]
        cases net2 year month <;> rfl
  · intro pairs
    induction pairs with
    | nil => intro fs; rfl
    | cons p rest ih =>
      intro fs
      rcases p with ⟨y, m⟩
      have h := ih (download_month net fs y m).files
      simp only [downloadMonths]
      by_cases hok : (download_month net fs y m).ok = true
      · simp [hok]
        omega
      · simp only [Bool.not_eq_true] at hok
        simp [hok]
        omega

/-- Witness for C5 at concrete inputs: with an empty directory and a network
that always fails, month 2020-05 produces no artifact and returns False, a
retry issues the request, and a two-window run attempts both windows. -/
theorem download_month_resumable_witness :
    download_month (fun _ _ => NetResult.failure "timeout") [] 2020 5
      = ⟨false, [], true⟩ ∧
    (downloadMonths (fun _ _ => NetResult.failure "timeout") [(2020, 5), (2020, 6)] []).1
        + (downloadMonths (fun _ _ => NetResult.failure "timeout") [(2020, 5), (2020, 6)] []).2.1
      = 2 := by
  constructor
  · exact ((download_month_resumable (fun _ _ => NetResult.failure "timeout")
      (fun _ _ => NetResult.failure "timeout") [] 2020 5).2.1 (by decide) "timeout" rfl).1
  · exact (download_month_resumable (fun _ _ => NetResult.failure "timeout")
      (fun _ _ => NetResult.failure "timeout") [] 2020 5).2.2 [(2020, 5), (2020, 6)] []

/-- C8 counterexample: with start 2024, end 2025 and current date June 2024,
the year 2024 precedes the final year 2025 yet contributes only months 1..6
(July 2024 is not visited), while the final year 2025, although after the
current date, contributes all twelve months - refuting the claim that every
year before the final one contributes months 1..12. -/
theorem download_all_truncates_midrange_current_year :
    (2024, 7) ∉ downloadAllPairs 2024 2025 2024 6 ∧
    (2025, 12) ∈ downloadAllPairs 2024 2025 2024 6 := by
  constructor
  · decide
  · decide

/-- C8 amended: download_all visits (year, month) with year from the start
year through the end year; a year equal to the current calendar year stops
at the current month, and every other year in range - before or after the
current year - contributes months 1..12. -/
theorem download_all_pairs_visited (startY endY curY curM y m : Nat) :
    (y, m) ∈ downloadAllPairs startY endY curY curM ↔
      (startY ≤ y ∧ y ≤ endY ∧ 1 ≤ m ∧ m ≤ lastMonthOfYear curY curM y) := by
  unfold downloadAllPairs
  rw [List.mem_flatMap]
  constructor
  · rintro ⟨y0, hy0, hm0⟩
    rcases List.mem_map.mp hm0 with ⟨m0, hm1, hm2⟩
    have hy1 := List.mem_range'_1.mp hy0
    have hm3 := List.mem_range'_1.mp hm1
    have hyy : y0 = y := congrArg Prod.fst hm2
    have hmm : m0 = m := congrArg Prod.snd hm2
    subst hyy; subst hmm
    refine ⟨by omega, by omega, by omega, by omega⟩
  · rintro ⟨h1, h2, h3, h4⟩
    refine ⟨y, ?_, ?_⟩
    · exact List.mem_range'_1.mpr ⟨h1, by omega⟩
    · exact List.mem_map.mpr ⟨m, List.mem_range'_1.mpr ⟨h3, by omega⟩, rfl⟩

/-- Witness for the amended C8 at concrete inputs: with the current date
past the configured end year, a mid-range window is visited and the final
year contributes its twelfth month, while the truncated current-year case
of the counterexample is reproduced through the characterization. -/
theorem download_all_pairs_visited_witness :
    (2024, 3) ∈ downloadAllPairs 2024 2025 2026 10 ∧
    ¬ (2024, 7) ∈ downloadAllPairs 2024 2025 2024 6 := by
  constructor
  · exact (download_all_pairs_visited 2024 2025 2026 10 2024 3).mpr (by decide)
  · intro hmem
    have h := (download_all_pairs_visited 2024 2025 2024 6 2024 7).mp hmem
    have : (7 : Nat) ≤ lastMonthOfYear 2024 6 2024 := h.2.2.2
    rw [show lastMonthOfYear 2024 6 2024 = 6 from rfl] at this
    omega

/-! ## ASN_scraping/scraper.py: _parse_accident_detail

A detail-page table row is its list of cells; a cell carries its text and
the text of its first anchor element, if any (the DOM library is an
external collaborator, so cells arrive already textified).  The if/elif
label chain of _parse_accident_detail is embedded as rowField, which
returns the first label matching the transformed caption in declaration
order. -/

/-- One td cell: its text and the text of its first anchor, if any. -/
structure Cell : Type where
  text : String
  linkText : Option String
deriving DecidableEq

/-- One tr row of the detail table. -/
structure HtmlRow : Type where
  cells : List Cell
deriving DecidableEq

/-- The known field labels of the if/elif chain, in declaration order. -/
inductive Field : Type where
  | date
  | time
  | atype
  | owner_operator
  | registration
  | msn
  | year_of_manufacture
  | fatalities
  | aircraft_damage
  | location
  | phase
  | nature
  | departure_airport
  | destination_airport
  | confidence_rating
deriving DecidableEq

/-- The parsed accident record (the accident_data dict).  Fields stored by
the source as value-or-None (time and the two airports) are doubly
optional: none means the label never matched, some none means the label
matched an empty value. -/
structure AccidentData : Type where
  url : String
  date : Option String
  time : Option (Option String)
  atype : Option String
  owner_operator : Option String
  registration : Option String
  msn : Option String
  year_of_manufacture : Option String
  fatalities : Option String
  aircraft_damage : Option String
  location : Option String
  phase : Option String
  nature : Option String
  departure_airport : Option (Option String)
  destination_airport : Option (Option String)
  confidence_rating : Option String
  narrative : Option String
  sources : Option (List String)
deriving DecidableEq

/-- The dict literal with only the url, the parse's starting value. -/
def initData (url : String) : AccidentData :=
  ⟨url, none, none, none, none, none, none, none, none, none, none, none,
   none, none, none, none, none, none⟩

/-- Caption normalization: cells[0].text.strip().replace(":", "").lower(). -/
def rowCaption (c0 : Cell) : String :=
  pyLower (removeChar ':' (pyStrip c0.text))

/-- The if/elif label chain of _parse_accident_detail, in source order: the
first matching label wins; a caption containing "aircraft" never matches
the generic type field, and one containing "other" never matches the
fatalities field. -/
def rowField (caption : String) : Option Field :=
  if pyIn "date" caption then some .date
  else if pyIn "time" caption then some .time
  else if pyIn "type" caption && !(pyIn "aircraft" caption) then some .atype
  else if pyIn "owner/operator" caption then some .owner_operator
  else if pyIn "registration" caption then some .registration
  else if pyIn "msn" caption then some .msn
  else if pyIn "year of manufacture" caption then some .year_of_manufacture
  else if pyIn "fatalities" caption && !(pyIn "other" caption) then some .fatalities
  else if pyIn "aircraft damage" caption then some .aircraft_damage
  else if pyIn "location" caption then some .location
  else if pyIn "phase" caption then some .phase
  else if pyIn "nature" caption then some .nature
  else if pyIn "departure airport" caption then some .departure_airport
  else if pyIn "destination airport" caption then some .destination_airport
  else if pyIn "confidence rating" caption then some .confidence_rating
  else none

/-- Embedding of one iteration of the table-row loop: rows with fewer than
two cells are skipped; otherwise the transformed caption selects at most
one field and the stripped value text (for the type field, the anchor text
when an anchor exists; for the location field, the _extract_country
resolution; for time and the airports, None in place of an empty value) is
stored into the dict, overwriting any earlier value of that field. -/
def processRow (countryLink : Option String) (acc : AccidentData) (row : HtmlRow) :
    AccidentData :=
  match row.cells with
  | c0 :: c1 :: _ =>
    let value := pyStrip c1.text
    match rowField (rowCaption c0) with
    | some .date => { acc with date := some value }
    | some .time => { acc with time := some (if value = "" then none else some value) }
    | some .atype =>
      { acc with atype := some (match c1.linkText with
          | some t => pyStrip t
          | none => value) }
    | some .owner_operator => { acc with owner_operator := some value }
    | some .registration => { acc with registration := some value }
    | some .msn => { acc with msn := some value }
    | some .year_of_manufacture => { acc with year_of_manufacture := some value }
    | some .fatalities => { acc with fatalities := some value }
    | some .aircraft_damage => { acc with aircraft_damage := some value }
    | some .location => { acc with location := some (extract_country countryLink value) }
    | some .phase => { acc with phase := some value }
    | some .nature => { acc with nature := some value }
    | some .departure_airport =>
      { acc with departure_airport := some (if value = "" then none else some value) }
    | some .destination_airport =>
      { acc with destination_airport := some (if value = "" then none else some value) }
    | some .confidence_rating => { acc with confidence_rating := some value }
    | none => acc
  | _ => acc

/-- A detail page as the parser consumes it: the rows of the first table if
one exists, the text of a country anchor in the Location row if any, the
narrative text if found by the caption walk, and the collected source
citation strings if a Sources caption exists. -/
structure DetailPage : Type where
  table : Option (List HtmlRow)
  countryLink : Option String
  narrative : Option String
  sources : Option (List String)
deriving DecidableEq

/-- Embedding of _parse_accident_detail: None when the page has no table;
otherwise the dict built from the url, the table rows, then the narrative
and sources sections. -/
def parse_accident_detail (page : DetailPage) (url : String) : Option AccidentData :=
  match page.table with
  | none => none
  | some rows =>
    let base := rows.foldl (processRow page.countryLink) (initData url)
    let withNarr :=
      match page.narrative with
      | some n => { base with narrative := some (pyStrip n) }
      | none => base
    let final :=
      match page.sources with
      | some srcs => { withNarr with sources := some srcs }
      | none => withNarr
    some final

/-- Uniform getter: every field as doubly-optional (none = label absent,
some x = label matched and stored x, where x itself is None exactly for an
empty time/airport value). -/
def AccidentData.get (r : AccidentData) : Field → Option (Option String)
  | .date => r.date.map some
  | .time => r.time
  | .atype => r.atype.map some
  | .owner_operator => r.owner_operator.map some
  | .registration => r.registration.map some
  | .msn => r.msn.map some
  | .year_of_manufacture => r.year_of_manufacture.map some
  | .fatalities => r.fatalities.map some
  | .aircraft_damage => r.aircraft_damage.map some
  | .location => r.location.map some
  | .phase => r.phase.map some
  | .nature => r.nature.map some
  | .departure_airport => r.departure_airport
  | .destination_airport => r.destination_airport
  | .confidence_rating => r.confidence_rating.map some

/-- Does this row assign this field when processed? -/
def rowAssigns (row : HtmlRow) (f : Field) : Bool :=
  match row.cells with
  | c0 :: _ :: _ => decide (rowField (rowCaption c0) = some f)
  | _ => false

/-- The value this row stores into this field when it assigns it. -/
def rowStored (countryLink : Option String) (row : HtmlRow) (f : Field) : Option String :=
  match row.cells with
  | _ :: c1 :: _ =>
    let value := pyStrip c1.text
    match f with
    | .date => some value
    | .time => if value = "" then none else some value
    | .atype => some (match c1.linkText with
        | some t => pyStrip t
        | none => value)
    | .owner_operator => some value
    | .registration => some value
    | .msn => some value
    | .year_of_manufacture => some value
    | .fatalities => some value
    | .aircraft_damage => some value
    | .location => some (extract_country countryLink value)
    | .phase => some value
    | .nature => some value
    | .departure_airport => if value = "" then none else some value
    | .destination_airport => if value = "" then none else some value
    | .confidence_rating => some value
  | _ => none

/-- Processing one row changes exactly the field the row assigns. -/
lemma processRow_get (countryLink : Option String) (acc : AccidentData) (row : HtmlRow)
    (f : Field) :
    (processRow countryLink acc row).get f
      = if rowAssigns row f then some (rowStored countryLink row f) else acc.get f := by
  rcases row with ⟨cells⟩
  rcases cells with _ | ⟨c0, cells⟩
  · simp [processRow, rowAssigns]
  rcases cells with _ | ⟨c1, rest⟩
  · simp [processRow, rowAssigns]
  rcases hrf : rowField (rowCaption c0) with _ | g
  · simp [processRow, rowAssigns, hrf]
  · cases g <;> cases f <;>
      simp [processRow, rowAssigns, rowStored, hrf, AccidentData.get]

/-- Processing one row never touches the url. -/
lemma processRow_url (countryLink : Option String) (acc : AccidentData) (row : HtmlRow) :
    (processRow countryLink acc row).url = acc.url := by
  rcases row with ⟨cells⟩
  rcases cells with _ | ⟨c0, cells⟩
  · simp [processRow]
  rcases cells with _ | ⟨c1, rest⟩
  · simp [processRow]
  rcases hrf : rowField (rowCaption c0) with _ | g
  · simp [processRow, hrf]
  · cases g <;> simp [processRow, hrf]

/-- Every field of the starting dict is absent. -/
lemma initData_get (url : String) (f : Field) : (initData url).get f = none := by
  cases f <;> rfl

/-- Folding the row loop: a field holds the value of the last row that
assigns it, and stays as in the start dict when no row assigns it. -/
lemma foldl_processRow_get (countryLink : Option String) (f : Field) :
    ∀ (rows : List HtmlRow) (acc : AccidentData),
      (rows.foldl (processRow countryLink) acc).get f
        = match rows.reverse.find? (fun row => rowAssigns row f) with
          | some row => some (rowStored countryLink row f)
          | none => acc.get f := by
  intro rows
  induction rows with
  | nil => intro acc; rfl
  | cons row rest ih =>
    intro acc
    rw [List.foldl_cons, ih, List.reverse_cons, List.find?_append]
    rcases hfind : rest.reverse.find? (fun row => rowAssigns row f) with _ | r
    · rcases hassign : rowAssigns row f with _ | _
      · simp [List.find?, hassign, processRow_get]
      · simp [List.find?, hassign, processRow_get]
    · simp

/-- The row loop never touches the url. -/
lemma foldl_processRow_url (countryLink : Option String) :
    ∀ (rows : List HtmlRow) (acc : AccidentData),
      (rows.foldl (processRow countryLink) acc).url = acc.url := by
  intro rows
  induction rows with
  | nil => intro acc; rfl
  | cons r rest ih =>
    intro acc
    rw [List.foldl_cons, ih, processRow_url]

/-- A parsed record's table fields and url coincide with those of the dict
built by the row loop: the narrative and sources steps touch neither. -/
lemma parse_detail_get_eq_base (page : DetailPage) (url : String) (rows : List HtmlRow)
    (rec : AccidentData) (hrows : page.table = some rows)
    (hrec : parse_accident_detail page url = some rec) :
    (∀ f, rec.get f = (rows.foldl (processRow page.countryLink) (initData url)).get f)
      ∧ rec.url = (rows.foldl (processRow page.countryLink) (initData url)).url := by
  unfold parse_accident_detail at hrec
  rw [hrows] at hrec
  rcases hn : page.narrative with _ | n <;> rcases hs : page.sources with _ | s <;>
    rw [hn, hs] at hrec <;>
    simp only [Option.some.injEq] at hrec <;>
    subst hrec <;>
    exact ⟨fun f => by cases f <;> rfl, rfl⟩

/-- The chain only selects the generic type field when the caption does
not contain "aircraft". -/
lemma rowField_atype_cond (caption : String)
    (h : rowField caption = some Field.atype) : pyIn "aircraft" caption = false := by
  unfold rowField at h
  by_cases h1 : pyIn "date" caption = true
  · rw [if_pos h1] at h; simp at h
  rw [if_neg h1] at h
  by_cases h2 : pyIn "time" caption = true
  · rw [if_pos h2] at h; simp at h
  rw [if_neg h2] at h
  by_cases h3 : (pyIn "type" caption && !(pyIn "aircraft" caption)) = true
  · rcases Bool.and_eq_true_iff.mp h3 with ⟨-, hb⟩
    simpa using hb
  rw [if_neg h3] at h
  by_cases h4 : pyIn "owner/operator" caption = true
  · rw [if_pos h4] at h; simp at h
  rw [if_neg h4] at h
  by_cases h5 : pyIn "registration" caption = true
  · rw [if_pos h5] at h; simp at h
  rw [if_neg h5] at h
  by_cases h6 : pyIn "msn" caption = true
  · rw [if_pos h6] at h; simp at h
  rw [if_neg h6] at h
  by_cases h7 : pyIn "year of manufacture" caption = true
  · rw [if_pos h7] at h; simp at h
  rw [if_neg h7] at h
  by_cases h8 : (pyIn "fatalities" caption && !(pyIn "other" caption)) = true
  · rw [if_pos h8] at h; simp at h
  rw [if_neg h8] at h
  by_cases h9 : pyIn "aircraft damage" caption = true
  · rw [if_pos h9] at h; simp at h
  rw [if_neg h9] at h
  by_cases h10 : pyIn "location" caption = true
  · rw [if_pos h10] at h; simp at h
  rw [if_neg h10] at h
  by_cases h11 : pyIn "phase" caption = true
  · rw [if_pos h11] at h; simp at h
  rw [if_neg h11] at h
  by_cases h12 : pyIn "nature" caption = true
  · rw [if_pos h12] at h; simp at h
  rw [if_neg h12] at h
  by_cases h13 : pyIn "departure airport" caption = true
  · rw [if_pos h13] at h; simp at h
  rw [if_neg h13] at h
  by_cases h14 : pyIn "destination airport" caption = true
  · rw [if_pos h14] at h; simp at h
  rw [if_neg h14] at h
  by_cases h15 : pyIn "confidence rating" caption = true
  · rw [if_pos h15] at h; simp at h
  rw [if_neg h15] at h
  simp at h

/-- The chain only selects the fatalities field when the caption does not
contain "other". -/
lemma rowField_fatalities_cond (caption : String)
    (h : rowField caption = some Field.fatalities) : pyIn "other" caption = false := by
  unfold rowField at h
  by_cases h1 : pyIn "date" caption = true
  · rw [if_pos h1] at h; simp at h
  rw [if_neg h1] at h
  by_cases h2 : pyIn "time" caption = true
  · rw [if_pos h2] at h; simp at h
  rw [if_neg h2] at h
  by_cases h3 : (pyIn "type" caption && !(pyIn "aircraft" caption)) = true
  · rw [if_pos h3] at h; simp at h
  rw [if_neg h3] at h
  by_cases h4 : pyIn "owner/operator" caption = true
  · rw [if_pos h4] at h; simp at h
  rw [if_neg h4] at h
  by_cases h5 : pyIn "registration" caption = true
  · rw [if_pos h5] at h; simp at h
  rw [if_neg h5] at h
  by_cases h6 : pyIn "msn" caption = true
  · rw [if_pos h6] at h; simp at h
  rw [if_neg h6] at h
  by_cases h7 : pyIn "year of manufacture" caption = true
  · rw [if_pos h7] at h; simp at h
  rw [if_neg h7] at h
  by_cases h8 : (pyIn "fatalities" caption && !(pyIn "other" caption)) = true
  · rcases Bool.and_eq_true_iff.mp h8 with ⟨-, hb⟩
    simpa using hb
  rw [if_neg h8] at h
  by_cases h9 : pyIn "aircraft damage" caption = true
  · rw [if_pos h9] at h; simp at h
  rw [if_neg h9] at h
  by_cases h10 : pyIn "location" caption = true
  · rw [if_pos h10] at h; simp at h
  rw [if_neg h10] at h
  by_cases h11 : pyIn "phase" caption = true
  · rw [if_pos h11] at h; simp at h
  rw [if_neg h11] at h
  by_cases h12 : pyIn "nature" caption = true
  · rw [if_pos h12] at h; simp at h
  rw [if_neg h12] at h
  by_cases h13 : pyIn "departure airport" caption = true
  · rw [if_pos h13] at h; simp at h
  rw [if_neg h13] at h
  by_cases h14 : pyIn "destination airport" caption = true
  · rw [if_pos h14] at h; simp at h
  rw [if_neg h14] at h
  by_cases h15 : pyIn "confidence rating" caption = true
  · rw [if_pos h15] at h; simp at h
  rw [if_neg h15] at h
  simp at h

/-- C4: for every detail page, a known field label present in the table
forces the corresponding record field to hold that row's extracted value
(the last assigning row when several match); a field whose label is absent
from every row stays omitted, never a placeholder; each row assigns at most
one field, decided by the first matching label in declaration order; and a
caption containing "aircraft" never feeds the generic type field, just as
one containing "other" never feeds the fatalities field. -/
theorem parse_detail_field_mapping (page : DetailPage) (url : String)
    (rows : List HtmlRow) (rec : AccidentData)
    (hrows : page.table = some rows)
    (hrec : parse_accident_detail page url = some rec) :
    ∀ f : Field,
      (rec.get f = none ↔ ∀ row ∈ rows, rowAssigns row f = false) ∧
      (∀ v, rec.get f = some v →
        ∃ row ∈ rows, rowAssigns row f = true ∧ rowStored page.countryLink row f = v) ∧
      (∀ (row : HtmlRow) (g : Field),
        rowAssigns row f = true → rowAssigns row g = true → f = g) ∧
      (∀ (row : HtmlRow) (c0 c1 : Cell) (cs : List Cell), row.cells = c0 :: c1 :: cs →
        pyIn "aircraft" (rowCaption c0) = true → rowAssigns row Field.atype = false) ∧
      (∀ (row : HtmlRow) (c0 c1 : Cell) (cs : List Cell), row.cells = c0 :: c1 :: cs →
        pyIn "other" (rowCaption c0) = true → rowAssigns row Field.fatalities = false) := by
  have hbase := (parse_detail_get_eq_base page url rows rec hrows hrec).1
  intro f
  refine ⟨?_, ?_, ?_, ?_, ?_⟩
  · rw [hbase f, foldl_processRow_get]
    rcases hfind : rows.reverse.find? (fun row => rowAssigns row f) with _ | r
    · show (initData url).get f = none ↔ ∀ row ∈ rows, rowAssigns row f = false
      rw [initData_get]
      constructor
      · intro _ row hrow
        have h := List.find?_eq_none.mp hfind row (List.mem_reverse.mpr hrow)
        simpa using h
      · intro _
        rfl
    · show some (rowStored page.countryLink r f) = none ↔ ∀ row ∈ rows, rowAssigns row f = false
      constructor
      · intro habs
        cases habs
      · intro hall
        have hr : rowAssigns r f = true := by simpa using List.find?_some hfind
        have hmem : r ∈ rows := List.mem_reverse.mp (List.mem_of_find?_eq_some hfind)
        rw [hall r hmem] at hr
        cases hr
  · intro v hv
    rw [hbase f, foldl_processRow_get] at hv
    rcases hfind : rows.reverse.find? (fun row => rowAssigns row f) with _ | r
    · rw [hfind] at hv
      have hv2 : (initData url).get f = some v := hv
      rw [initData_get] at hv2
      cases hv2
    · rw [hfind] at hv
      have hv2 : some (rowStored page.countryLink r f) = some v := hv
      exact ⟨r, List.mem_reverse.mp (List.mem_of_find?_eq_some hfind),
        by simpa using List.find?_some hfind, Option.some.inj hv2⟩
  · intro row g h1 h2
    unfold rowAssigns at h1 h2
    rcases row with ⟨cells⟩
    rcases cells with _ | ⟨c0, cells⟩
    · cases h1
    rcases cells with _ | ⟨c1, rest⟩
    · cases h1
    have e1 := of_decide_eq_true h1
    have e2 := of_decide_eq_true h2
    rw [e1] at e2
    exact Option.some.inj e2
  · intro row c0 c1 cs hcells hair
    unfold rowAssigns
    rw [hcells]
    rw [decide_eq_false_iff_not]
    intro hx
    have hc := rowField_atype_cond (rowCaption c0) hx
    rw [hair] at hc
    cases hc
  · intro row c0 c1 cs hcells hother
    unfold rowAssigns
    rw [hcells]
    rw [decide_eq_false_iff_not]
    intro hx
    have hc := rowField_fatalities_cond (rowCaption c0) hx
    rw [hother] at hc
    cases hc

/-- Witness for C4 at a concrete page: a single-row table labelled Date
assigns the date field with the stripped value. -/
theorem parse_detail_field_mapping_witness :
    ∃ row ∈ [HtmlRow.mk [Cell.mk "Date:" none, Cell.mk " 1 JAN 2024 " none]],
      rowAssigns row Field.date = true ∧
      rowStored none row Field.date = some "1 JAN 2024" := by
  have h := parse_detail_field_mapping
    ⟨some [HtmlRow.mk [Cell.mk "Date:" none, Cell.mk " 1 JAN 2024 " none]], none, none, none⟩
    "u"
    [HtmlRow.mk [Cell.mk "Date:" none, Cell.mk " 1 JAN 2024 " none]]
    ⟨"u", some "1 JAN 2024", none, none, none, none, none, none, none, none,
      none, none, none, none, none, none, none, none⟩
    rfl (by decide)
  exact (h Field.date).2.1 (some "1 JAN 2024") (by decide)

/-- C10: every record returned by _parse_accident_detail carries a url
field equal to the detail-page url it was parsed from, whatever the table
labels matched; the Staging Loader's SourceKey (last url path segment) is
therefore extracted from exactly that url. -/
theorem parse_detail_url_preserved (page : DetailPage) (url : String) (rec : AccidentData)
    (hrec : parse_accident_detail page url = some rec) :
    rec.url = url ∧ sourceIdOfUrl rec.url = sourceIdOfUrl url := by
  have htab : ∃ rows, page.table = some rows := by
    rcases ht : page.table with _ | rows
    · rw [parse_accident_detail, ht] at hrec
      cases hrec
    · exact ⟨rows, rfl⟩
  rcases htab with ⟨rows, hrows⟩
  have h := (parse_detail_get_eq_base page url rows rec hrows hrec).2
  have hurl : rec.url = url := by
    rw [h, foldl_processRow_url]
    rfl
  exact ⟨hurl, by rw [hurl]⟩

/-- Witness for C10 at a concrete page with an empty table: the parsed
record's url is the page url and yields the wikibase SourceKey. -/
theorem parse_detail_url_preserved_witness :
    (initData "https:a/wikibase/367247").url = "https:a/wikibase/367247" ∧
    sourceIdOfUrl (initData "https:a/wikibase/367247").url
      = sourceIdOfUrl "https:a/wikibase/367247" :=
  parse_detail_url_preserved ⟨some [], none, none, none⟩ "https:a/wikibase/367247"
    (initData "https:a/wikibase/367247") rfl

/-! ## ASN_scraping/scraper.py: scrape_year

The network and listing parse are modelled as two oracles: listing maps a
page number to the detail urls extracted by _parse_accident_list (none for
a 404, an error, or an empty body, all of which make the loop break), and
detail maps a url to its fetched detail page (none for a fetch failure).
The unbounded while loop is embedded with explicit fuel; the claim
instantiates the fuel above the first terminating page. -/

/-- The external surface seen by scrape_year for one year. -/
structure YearSite : Type where
  listing : Nat → Option (List String)
  detail : String → Option DetailPage

/-- The inner loop over one listing page's detail urls: failed fetches and
unparsable pages are skipped, parsed records accumulate in order. -/
def pageAccidents (site : YearSite) (urls : List String) : List AccidentData :=
  urls.filterMap (fun url => (site.detail url).bind (fun page => parse_accident_detail page url))

/-- Embedding of the while loop of scrape_year, with fuel: at each page
number, fetch the listing; break on a failed fetch or an empty link list,
returning the accumulated records; otherwise scrape the page's accidents
and advance to the next page number.  Returns the records and the visited
page numbers, or none when the fuel runs out before termination. -/
def scrapePages (site : YearSite) :
    Nat → Nat → List AccidentData → Option (List AccidentData × List Nat)
  | 0, _, _ => none
  | fuel + 1, page_number, acc =>
    match site.listing page_number with
    | none => some (acc, [page_number])
    | some accident_urls =>
      if accident_urls.isEmpty then some (acc, [page_number])
      else
        match scrapePages site fuel (page_number + 1) (acc ++ pageAccidents site accident_urls) with
        | none => none
        | some r => some (r.1, page_number :: r.2)

/-- Embedding of scrape_year: the loop starts at page number 1 with an
empty accident list. -/
def scrape_year (site : YearSite) (fuel : Nat) : Option (List AccidentData × List Nat) :=
  scrapePages site fuel 1 []

/-- Does pagination terminate at this page (404 or error on fetch, or zero
extracted detail links)? -/
def pageEnds (site : YearSite) (p : Nat) : Bool :=
  match site.listing p with
  | none => true
  | some urls => urls.isEmpty

/-- The records accumulated over a list of listing pages. -/
def pagesRecords (site : YearSite) (pages : List Nat) : List AccidentData :=
  pages.flatMap (fun p =>
    match site.listing p with
    | some urls => pageAccidents site urls
    | none => [])

/-- Characterization of the pagination loop from any start page: if N is
the first terminating page at or after the start and the fuel suffices,
the loop returns the records of pages start..N-1 and visits start..N. -/
lemma scrapePages_spec (site : YearSite) :
    ∀ (fuel start N : Nat) (acc : List AccidentData),
      start ≤ N → pageEnds site N = true →
      (∀ k, k < N → start ≤ k → pageEnds site k = false) →
      N + 1 ≤ fuel + start →
      scrapePages site fuel start acc
        = some (acc ++ pagesRecords site (List.range' start (N - start)),
                List.range' start (N - start + 1)) := by
  intro fuel
  induction fuel with
  | zero =>
    intro start N acc h1 _ _ h4
    omega
  | succ fuel ih =>
    intro start N acc hle hend hmid hfuel
    by_cases hsn : start = N
    · subst hsn
      rw [scrapePages]
      unfold pageEnds at hend
      rcases hl : site.listing start with _ | urls
      · simp [pagesRecords, List.range']
      · rw [hl] at hend
        have hempty : urls.isEmpty = true := hend
        simp [hempty, pagesRecords, List.range']
    · have hlt : start < N := lt_of_le_of_ne hle hsn
      have hnotend := hmid start hlt (le_refl start)
      rw [scrapePages]
      unfold pageEnds at hnotend
      rcases hl : site.listing start with _ | urls
      · rw [hl] at hnotend
        cases hnotend
      · rw [hl] at hnotend
        have hne : urls.isEmpty = false := hnotend
        have hrec := ih (start + 1) N (acc ++ pageAccidents site urls) (by omega) hend
          (fun k hk1 hk2 => hmid k hk1 (by omega)) (by omega)
        simp only [hne, Bool.false_eq_true, if_false, hrec]
        have hn1 : N - start = (N - (start + 1)) + 1 := by omega
        rw [hn1, List.range'_succ, List.range'_succ]
        simp only [pagesRecords, List.flatMap_cons, hl]
        rw [List.append_assoc]
        exact rfl

/-- C3: for a listing-source run, page numbers are visited from 1 advancing
by exactly 1 (strictly increasing, no page twice), and the run terminates
without error at the first page whose fetch fails or whose parse yields
zero detail links, returning exactly the records accumulated from the
earlier pages. -/
theorem scrape_year_pagination (site : YearSite) (fuel N : Nat)
    (hN : 1 ≤ N) (hend : pageEnds site N = true)
    (hmid : ∀ k, k < N → 1 ≤ k → pageEnds site k = false)
    (hfuel : N ≤ fuel) :
    scrape_year site fuel
      = some (pagesRecords site (List.range' 1 (N - 1)), List.range' 1 N) ∧
    List.Chain' (fun a b => a + 1 = b) (List.range' 1 N) ∧
    (List.range' 1 N).Nodup ∧
    (List.range' 1 N).headI = 1 := by
  refine ⟨?_, ?_, ?_, ?_⟩
  · have h := scrapePages_spec site fuel 1 N [] hN hend hmid (by omega)
    unfold scrape_year
    rw [h]
    have : N - 1 + 1 = N := by omega
    rw [this]
    simp
  · have hchain : ∀ (n s : Nat), List.Chain' (fun a b => a + 1 = b) (List.range' s n) := by
      intro n
      induction n with
      | zero => intro s; simp
      | succ n ihn =>
        intro s
        rw [List.range'_succ]
        rcases n with _ | m
        · simp
        · rw [List.range'_succ]
          exact List.Chain'.cons rfl (by rw [← List.range'_succ]; exact ihn (s + 1))
    exact hchain N 1
  · exact List.nodup_range' 1 N
  · rcases hn0 : N with _ | m
    · omega
    · rw [List.range'_succ]
      rfl

/-- Concrete one-page site used by the C3 witness: page 1 links one detail
url whose fetch fails, page 2 and beyond return 404. -/
def oneSite : YearSite :=
  ⟨fun p => if p = 1 then some ["u1"] else none, fun _ => none⟩

/-- Witness for C3 at a concrete site: the run visits pages 1 and 2 in
order and returns the records of page 1. -/
theorem scrape_year_pagination_witness :
    scrape_year oneSite 5
      = some (pagesRecords oneSite (List.range' 1 1), List.range' 1 2) ∧
    List.Chain' (fun a b => a + 1 = b) (List.range' 1 2) ∧
    (List.range' 1 2).Nodup ∧
    (List.range' 1 2).headI = 1 :=
  scrape_year_pagination oneSite 5 2 (by decide) (by decide)
    (by
      intro k hk h1
      interval_cases k
      decide)
    (by decide)

/-- A single-character substring test succeeds only when the character occurs. -/
lemma pyInAux_single_mem (c : Char) :
    ∀ l : List Char, pyInAux [c] l = true → c ∈ l := by
  intro l
  induction l with
  | nil => intro h; simp [pyInAux] at h
  | cons x rest ih =>
    intro h
    rw [pyInAux] at h
    rcases Bool.or_eq_true_iff.mp h with h1 | h1
    · have hx : c = x := by
        by_cases hc : c = x
        · exact hc
        · simp [List.isPrefixOf, hc] at h1
      simp [hx]
    · exact List.mem_cons_of_mem _ (ih h1)

/-- Splitting on a character yields one more part than occurrences of it. -/
lemma splitCharAux_length (sep : Char) :
    ∀ l : List Char, (splitCharAux sep l).length = l.count sep + 1 := by
  intro l
  induction l with
  | nil => simp [splitCharAux]
  | cons c rest ih =>
    rw [splitCharAux]
    by_cases hc : c = sep
    · simp [hc, List.count_cons, ih]
    · have hne : (splitCharAux sep rest) ≠ [] := by
        intro habs
        have := ih
        rw [habs] at this
        simp at this
      rcases hx : splitCharAux sep rest with _ | ⟨h0, t0⟩
      · exact absurd hx hne
      · simp only [if_neg hc, hx]
        have := ih
        rw [hx] at this
        simp only [List.length_cons] at this ⊢
        rw [List.count_cons]
        simp [hc, ← this]

/-- C6: Location resolution by _extract_country is a three-step fallback:
with a country hyperlink the result is the hyperlink text stripped; with no
hyperlink but a dash in the raw text the result is the stripped last
dash-separated segment; otherwise the result is the trimmed raw text. -/
theorem extract_country_three_step_fallback (countryLink : Option String) (txt : String) :
    (∀ t, countryLink = some t → extract_country countryLink txt = pyStrip t) ∧
    (countryLink = none → pyIn "-" txt = true →
      extract_country countryLink txt = pyStrip ((pySplit '-' txt).getLastD "")) ∧
    (countryLink = none → pyIn "-" txt = false →
      extract_country countryLink txt = pyStrip txt) := by
  refine ⟨?_, ?_, ?_⟩
  · intro t ht; subst ht; rfl
  · intro hn hdash
    subst hn
    have hlen : 2 ≤ (pySplit '-' txt).length := by
      have hmem : '-' ∈ txt.data := pyInAux_single_mem '-' txt.data hdash
      have hcount : 1 ≤ txt.data.count '-' := List.one_le_count_iff.mpr hmem
      unfold pySplit
      rw [List.length_map, splitCharAux_length]
      omega
    simp [extract_country, hdash, hlen]
  · intro hn hdash; subst hn; simp [extract_country, hdash]

/-- Witness for C6 at concrete inputs: the dash fallback resolves
"Near CityX - CountryY" to "CountryY", and a hyperlink wins when present. -/
theorem extract_country_three_step_fallback_witness :
    extract_country none "Near CityX - CountryY"
        = pyStrip ((pySplit '-' "Near CityX - CountryY").getLastD "") ∧
    extract_country none "Near CityX - CountryY" = "CountryY" ∧
    extract_country (some " France ") "ignored" = pyStrip " France " := by
  refine ⟨?_, by decide, ?_⟩
  · exact (extract_country_three_step_fallback none "Near CityX - CountryY").2.1 rfl (by decide)
  · exact (extract_country_three_step_fallback (some " France ") "ignored").1 " France " rfl

/-- C7: for every year and month in 1..12, get_month_date_range returns the
pair (first day, last day) of that calendar month as YYYY-MM-DD strings: the
first day is day 1 and the last day is the number of days in the month,
including leap-year February. -/
theorem get_month_date_range_first_and_last (y m : Nat) (h1 : 1 ≤ m) (h2 : m ≤ 12) :
    get_month_date_range y m = (fmtDate y m 1, fmtDate y m (daysInMonth y m)) := by
  interval_cases m <;>
    simp [get_month_date_range, predDay, daysInMonth]

/-- Witness for C7 at a concrete input: February of leap year 2024 runs from
2024-02-01 to 2024-02-29. -/
theorem get_month_date_range_first_and_last_witness :
    get_month_date_range 2024 2 = (fmtDate 2024 2 1, fmtDate 2024 2 (daysInMonth 2024 2)) ∧
    get_month_date_range 2024 2 = ("2024-02-01", "2024-02-29") :=
  ⟨get_month_date_range_first_and_last 2024 2 (by decide) (by decide), by decide⟩

end FlightCrash
